import Mathlib

/-!
Shallow embedding of the core logic of `Validador_Streamlit.py`
(label-validation application: credential store, divergence policy,
override gate, record store, session batch tracker), together with
theorems settling the specification claims about it.

Python strings are modelled as Lean `String`; the SQLite tables
`usuarios` and `registros` are modelled as Lean lists of records;
SQLite's `TEXT` comparison (`BETWEEN`, `ORDER BY ... ASC`) is modelled
by lexicographic comparison of the character lists; the SHA-256 hash of
`make_hash` is modelled by an explicit hash-function parameter (the code
only ever compares hash outputs for equality, never inspects them).
-/

namespace Validador

/-- Characters kept by `sanitize_code` (the regex `[^0-9A-Za-z]` removes
everything else): ASCII digits and letters. -/
def isCodeChar (c : Char) : Bool :=
  (decide ('0' ≤ c) && decide (c ≤ '9')) ||
  (decide ('A' ≤ c) && decide (c ≤ 'Z')) ||
  (decide ('a' ≤ c) && decide (c ≤ 'z'))

/-- Embedding of `sanitize_code(code, max_len)` (source line 269):
`re.sub(r'[^0-9A-Za-z]', '', code)[:max_len]`. -/
def sanitize_code (code : String) (max_len : Nat) : String :=
  ((code.data.filter isCodeChar).take max_len).asString

/-- Whitespace characters removed by Python's `str.strip()`. -/
def isPyWs (c : Char) : Bool :=
  c == ' ' || c == '\t' || c == '\n' || c == '\r' || c == '\x0b' || c == '\x0c'

/-- Drop leading whitespace from a character list. -/
def dropLeadingWs : List Char → List Char
  | [] => []
  | c :: cs => if isPyWs c then dropLeadingWs cs else c :: cs

/-- Embedding of Python's `str.strip()`: remove leading and trailing
whitespace. -/
def strip (s : String) : String :=
  ((dropLeadingWs ((dropLeadingWs s.data).reverse)).reverse).asString

/-- One row of the `usuarios` table (source lines 110-121). -/
structure Usuario where
  id : Nat
  uid : String
  nome : String
  role : String
  salt_hex : String
  hash_hex : String
  ativo : Bool
  criado_em : String
deriving DecidableEq, Repr

/-- Abstract stand-in for `hashlib.sha256(salt + password)`: a function
from (salt, password) to hash digest.  `make_hash(password, salt)[1]`
is `hashFn salt password`. -/
def HashFn : Type := String → String → String

/-- Embedding of `verify_password(password, salt_hex, hash_hex)`
(source line 77): recompute the hash with the stored salt and compare. -/
def verify_password (hashFn : HashFn) (password salt_hex hash_hex : String) : Bool :=
  hashFn salt_hex password == hash_hex

/-- Identity record returned by `autenticar` on success
(keys `id, uid, nome, role, ativo`). -/
structure AuthInfo where
  id : Nat
  uid : String
  nome : String
  role : String
  ativo : Bool
deriving DecidableEq, Repr

/-- Embedding of `DatabaseManager.autenticar(uid, senha)` (source lines
180-192): look the stripped login up in `usuarios` (the `uid` column is
UNIQUE, so `find?` models `SELECT ... WHERE uid=?`), refuse inactive
accounts, then verify the password against the stored salt and hash. -/
def autenticar (hashFn : HashFn) (usuarios : List Usuario) (uid senha : String) :
    Option AuthInfo :=
  match usuarios.find? (fun u => u.uid == strip uid) with
  | none => none
  | some u =>
    if !u.ativo then none
    else if verify_password hashFn senha u.salt_hex u.hash_hex then
      some ⟨u.id, u.uid, u.nome, u.role, u.ativo⟩
    else none

/-- Storage-layer error: the UNIQUE constraint on `usuarios.uid`
(source line 113) rejects a duplicate login (`sqlite3.IntegrityError`). -/
inductive DbError where
  | duplicateLogin
deriving DecidableEq, Repr

/-- Embedding of `DatabaseManager.criar_usuario(uid, nome, role, senha, ativo)`
(source lines 154-161) together with the storage layer's UNIQUE
constraint on the `uid` column: the INSERT stores `uid.strip()` and
`(nome or uid).strip()`, and fails atomically when the stripped login is
already present.  `salt` stands for the fresh random salt generated by
`make_hash`. -/
def criar_usuario (hashFn : HashFn) (usuarios : List Usuario) (newId : Nat)
    (uid nome role salt senha : String) (ativo : Bool) (criado_em : String) :
    Except DbError (List Usuario) :=
  let uid' := strip uid
  if usuarios.any (fun u => u.uid == uid') then
    .error .duplicateLogin
  else
    .ok (usuarios ++ [⟨newId, uid', strip (if nome == "" then uid else nome), role,
                       salt, hashFn salt senha, ativo, criado_em⟩])

/-- Embedding of `DatabaseManager.atualizar_usuario(user_id, nome, role, ativo)`
(source lines 163-167): `UPDATE usuarios SET nome=?, role=?, ativo=?
WHERE id=?` with `(nome or "").strip()`. -/
def atualizar_usuario (usuarios : List Usuario) (user_id : Nat)
    (nome role : String) (ativo : Bool) : List Usuario :=
  usuarios.map (fun u =>
    if u.id == user_id then
      { u with nome := strip nome, role := role, ativo := ativo }
    else u)

/-- One row of the `registros` table (source lines 95-107); `divergencia`
is stored as the integer 0 or 1, exactly as in the table. -/
structure Registro where
  data_hora : String
  usuario : String
  tipo_tela : String
  transporte : String
  pedido : String
  divergencia : Nat
  supervisor_liberou : String
  motivo_divergencia : String
deriving DecidableEq, Repr

/-- The row dictionary handed to `append_row` (built by `registrar_dado`,
source lines 298-310), with the divergence flag still a boolean. -/
structure RowInput where
  data_hora : String
  usuario : String
  tipo_tela : String
  transporte : String
  pedido : String
  divergencia : Bool
  supervisor_liberou : String
  motivo_divergencia : String
deriving DecidableEq, Repr

/-- Python string slicing `s[:n]`: the first `n` characters. -/
def takeStr (s : String) (n : Nat) : String :=
  (s.data.take n).asString

/-- Embedding of `DatabaseManager.append_row(row)` (source lines 195-220):
INSERT one row into `registros`, truncating the codes with `[:10]` and
encoding the divergence flag as `1 if ... else 0`. -/
def append_row (regs : List Registro) (row : RowInput) : List Registro :=
  regs ++ [⟨row.data_hora, row.usuario, row.tipo_tela,
            takeStr row.transporte 10, takeStr row.pedido 10,
            if row.divergencia then 1 else 0,
            row.supervisor_liberou, row.motivo_divergencia⟩]

/-- Embedding of `DatabaseManager.existe_registro(transporte, pedido, tipo_tela)`
(source lines 229-235): `SELECT 1 FROM registros WHERE tipo_tela = ? AND
transporte = ? AND pedido = ? LIMIT 1` with the codes truncated to 10. -/
def existe_registro (regs : List Registro) (transporte pedido tipo_tela : String) :
    Bool :=
  regs.any (fun r =>
    r.tipo_tela == tipo_tela && r.transporte == takeStr transporte 10 &&
    r.pedido == takeStr pedido 10)

/-- Lexicographic comparison of character lists by code point, modelling
SQLite's ordering of `TEXT` values (for the ASCII timestamp strings of
this application it coincides with the byte ordering SQLite uses). -/
def strListLe : List Char → List Char → Bool
  | [], _ => true
  | _ :: _, [] => false
  | a :: as, b :: bs =>
    if a.toNat < b.toNat then true
    else if b.toNat < a.toNat then false
    else strListLe as bs

/-- String comparison used for `data_hora BETWEEN ? AND ?` and
`ORDER BY data_hora ASC`. -/
def strLe (a b : String) : Bool :=
  strListLe a.data b.data

/-- Ordering of `registros` rows by the `data_hora` column. -/
def regLe (a b : Registro) : Prop :=
  strLe a.data_hora b.data_hora = true

instance : DecidableRel regLe := fun a b => by
  unfold regLe; infer_instance

/-- Filter predicate of `query_export` (the WHERE clause of source lines
240-252): timestamp between start-of-day and end-of-day, optional screen
filter (skipped for `None`, the empty string, or `"TODAS"`, matching
Python's `if tipo_tela and tipo_tela != "TODAS"`), optional
divergence-only restriction. -/
def exportPred (dt_ini dt_fim : String) (tipo_tela : Option String)
    (apenas_div : Bool) (r : Registro) : Bool :=
  (strLe (dt_ini ++ " 00:00:00") r.data_hora && strLe r.data_hora (dt_fim ++ " 23:59:59")) &&
  (match tipo_tela with
   | none => true
   | some t => if t == "" || t == "TODAS" then true else r.tipo_tela == t) &&
  (if apenas_div then r.divergencia == 1 else true)

/-- Embedding of `DatabaseManager.query_export(dt_ini, dt_fim, tipo_tela,
apenas_div)` (source lines 237-256): select the rows matching the WHERE
clause and return them ordered ascending by `data_hora`. -/
def query_export (regs : List Registro) (dt_ini dt_fim : String)
    (tipo_tela : Option String) (apenas_div : Bool) : List Registro :=
  List.insertionSort regLe (regs.filter (exportPred dt_ini dt_fim tipo_tela apenas_div))

/-- Verdict of the scan-evaluation logic of the two screens. -/
inductive Verdict where
  | accept
  | requireOverride
  | rejectIncomplete
deriving DecidableEq, Repr

/-- Embedding of the submit branch of `tela_leitura` (source lines
449-472): sanitize both codes; any empty code aborts without a record or
dialog; `t != p` or an existing `(LEITURA, t, p)` record opens the
divergence dialog; otherwise the scan is accepted. -/
def avaliar_leitura (regs : List Registro) (t_raw p_raw : String) : Verdict :=
  let t := sanitize_code t_raw 10
  let p := sanitize_code p_raw 10
  if t == "" || p == "" then .rejectIncomplete
  else if t != p || existe_registro regs t p "LEITURA" then .requireOverride
  else .accept

/-- Embedding of the submit branch of `tela_varios` (source lines
518-535): sanitize both codes; any empty code aborts; only `t != p`
opens the divergence dialog — no duplicate lookup is performed on this
screen; otherwise the scan is accepted. -/
def avaliar_varios (regs : List Registro) (t_raw p_raw : String) : Verdict :=
  let t := sanitize_code t_raw 10
  let p := sanitize_code p_raw 10
  if t == "" || p == "" then .rejectIncomplete
  else if t != p then .requireOverride
  else .accept

/-- Outcome of one submission to the divergence dialog. -/
inductive GateResult where
  | resolvedAccept
  | invalidCredentialsOrRole
  | missingReason
deriving DecidableEq, Repr

/-- Embedding of the "Validar e Concluir" branch of `dialog_divergencia`
(source lines 341-384): authenticate the submitted supervisor login; the
combined check `auth and auth["role"] in ("supervisor", "admin")` must
pass, and the reason must be non-empty after stripping, before the
divergent record is written via `registrar_dado`; on every failure
nothing is written and the dialog stays open.  `current_uid` is the
operator (`st.session_state.user["uid"]`), `now` the timestamp
`registrar_dado` would generate. -/
def dialog_divergencia (hashFn : HashFn) (usuarios : List Usuario)
    (regs : List Registro) (current_uid transporte pedido origem : String)
    (sid spw motivo : String) (now : String) : GateResult × List Registro :=
  match autenticar hashFn usuarios sid spw with
  | some auth =>
    if auth.role == "supervisor" || auth.role == "admin" then
      if strip motivo == "" then (.missingReason, regs)
      else
        (.resolvedAccept,
         append_row regs ⟨now, current_uid, origem, transporte, pedido, true,
                          sid, strip motivo⟩)
    else (.invalidCredentialsOrRole, regs)
  | none => (.invalidCredentialsOrRole, regs)

/-- One item of the on-screen batch list of `tela_varios`
(`st.session_state.volumes`). -/
structure BatchItem where
  n : Nat
  transporte : String
  pedido : String
  divergente : Bool
deriving DecidableEq, Repr

/-- Session state of the batch tracker: the running list and the
counter `st.session_state.vol_count`. -/
structure BatchState where
  volumes : List BatchItem
  vol_count : Nat
deriving DecidableEq, Repr

/-- Embedding of the item-adding code of `tela_varios` (source lines
527-529) and of the VARIOS branch of `dialog_divergencia` (lines
373-380): `vol_count += 1` and append `{"n": vol_count, ...}`; the
assigned sequence number is returned alongside the new state. -/
def add_item (s : BatchState) (transporte pedido : String) (divergente : Bool) :
    Nat × BatchState :=
  let n := s.vol_count + 1
  (n, ⟨s.volumes ++ [⟨n, transporte, pedido, divergente⟩], n⟩)

/-- Embedding of the "Zerar Lista (UI)" button of `tela_varios` (source
lines 510-511): `st.session_state.volumes = []; st.session_state.vol_count = 0`. -/
def zerar_lista (_s : BatchState) : BatchState :=
  ⟨[], 0⟩

/-- Run a sequence of `add_item` calls, collecting the returned sequence
numbers. -/
def run_adds : BatchState → List (String × String × Bool) → List Nat × BatchState
  | s, [] => ([], s)
  | s, (t, p, d) :: rest =>
    let r := add_item s t p d
    let q := run_adds r.2 rest
    (r.1 :: q.1, q.2)

/-! ## Helper lemmas -/

theorem asString_data (l : List Char) : (l.asString).data = l := rfl

theorem takeStr_of_le {s : String} {n : Nat} (h : s.length ≤ n) : takeStr s n = s := by
  unfold takeStr
  rw [List.take_of_length_le h]
  cases s
  rfl

/-! ## Claim C8 -/

/-- Claim C8: sanitization is idempotent — stripping non-alphanumeric
characters and truncating to the maximum length of 10 a second time
changes nothing. -/
theorem c8_sanitize_idempotent (x : String) :
    sanitize_code (sanitize_code x 10) 10 = sanitize_code x 10 := by
  unfold sanitize_code
  rw [asString_data]
  have hall : ∀ a ∈ (x.data.filter isCodeChar).take 10, isCodeChar a = true := by
    intro a ha
    exact (List.mem_filter.mp (List.mem_of_mem_take ha)).2
  rw [List.filter_eq_self.mpr hall, List.take_take, Nat.min_self]

/-! ## Claim C6 -/

theorem run_adds_numbers (items : List (String × String × Bool)) :
    ∀ s : BatchState, (run_adds s items).1 = List.range' (s.vol_count + 1) items.length := by
  induction items with
  | nil => intro s; rfl
  | cons hd tl ih =>
    intro s
    obtain ⟨t, p, d⟩ := hd
    simp only [run_adds, add_item, ih, List.length_cons, List.range'_succ]

theorem run_adds_count (items : List (String × String × Bool)) :
    ∀ s : BatchState, (run_adds s items).2.vol_count = s.vol_count + items.length := by
  induction items with
  | nil => intro s; rfl
  | cons hd tl ih =>
    intro s
    obtain ⟨t, p, d⟩ := hd
    simp only [run_adds, add_item, ih, List.length_cons]
    omega

/-- Claim C6 counterexample: the sequence number 1 handed out for the
first item of a batch is handed out again for the first item added after
"Zerar Lista" resets the batch — sequence numbers ARE reused in the same
session after a reset, contradicting the claim. -/
theorem c6_counterexample :
    (add_item ⟨[], 0⟩ "A1" "A1" false).1 = 1 ∧
    (add_item (zerar_lista (add_item ⟨[], 0⟩ "A1" "A1" false).2) "B2" "B2" false).1 = 1 := by
  exact ⟨rfl, rfl⟩

/-- Claim C6 (amended): every `add_item` returns a sequence number that
is strictly increasing across consecutive adds, and the numbering of a
batch started by a reset begins at 1; but the reset clears the counter,
so numbering restarts at 1 in the new batch (numbers are reused after a
reset). -/
theorem c6_batch_seq (s : BatchState) (items : List (String × String × Bool)) :
    List.Pairwise (· < ·) (run_adds s items).1 ∧
    (run_adds (zerar_lista s) items).1 = List.range' 1 items.length ∧
    (run_adds s items).2.vol_count = s.vol_count + items.length := by
  refine ⟨?_, ?_, run_adds_count items s⟩
  · rw [run_adds_numbers]
    exact List.pairwise_lt_range' _ _
  · rw [run_adds_numbers]
    rfl

/-! ## Claim C1 -/

/-- Claim C1 counterexample: on the VARIOS (batch) screen a code pair
whose exact triple `(VARIOS, "A1", "A1")` is already recorded is
accepted again — the code performs no duplicate lookup on that screen,
whereas the claim requires REQUIRE_OVERRIDE for a previously recorded
triple in every screen context. -/
theorem c1_counterexample :
    avaliar_varios [⟨"2024-01-01 08:00:00", "op", "VARIOS", "A1", "A1", 0, "", ""⟩]
        "A1" "A1" = .accept ∧
    existe_registro [⟨"2024-01-01 08:00:00", "op", "VARIOS", "A1", "A1", 0, "", ""⟩]
        "A1" "A1" "VARIOS" = true ∧
    sanitize_code "A1" 10 = "A1" ∧ ("A1" : String) ≠ "" := by
  refine ⟨rfl, rfl, rfl, by decide⟩

/-- Claim C1 (amended): for sanitized codes, on the LEITURA screen the
verdict is ACCEPT iff the codes are equal, non-empty, and no prior
`(LEITURA, t, p)` record exists; REQUIRE_OVERRIDE iff both are non-empty
but the codes differ or the triple was already recorded;
REJECT_INCOMPLETE iff either code is empty.  On the VARIOS screen no
duplicate lookup is performed: ACCEPT iff the codes are equal and
non-empty, REQUIRE_OVERRIDE iff both are non-empty and differ,
REJECT_INCOMPLETE iff either is empty. -/
theorem c1_policy_amended (regs : List Registro) (t p : String)
    (ht : sanitize_code t 10 = t) (hp : sanitize_code p 10 = p) :
    (avaliar_leitura regs t p = .accept ↔
      (t = p ∧ t ≠ "" ∧ p ≠ "" ∧ existe_registro regs t p "LEITURA" = false)) ∧
    (avaliar_leitura regs t p = .requireOverride ↔
      (t ≠ "" ∧ p ≠ "" ∧ (t ≠ p ∨ existe_registro regs t p "LEITURA" = true))) ∧
    (avaliar_leitura regs t p = .rejectIncomplete ↔ (t = "" ∨ p = "")) ∧
    (avaliar_varios regs t p = .accept ↔ (t = p ∧ t ≠ "" ∧ p ≠ "")) ∧
    (avaliar_varios regs t p = .requireOverride ↔ (t ≠ "" ∧ p ≠ "" ∧ t ≠ p)) ∧
    (avaliar_varios regs t p = .rejectIncomplete ↔ (t = "" ∨ p = "")) := by
  unfold avaliar_leitura avaliar_varios
  rw [ht, hp]
  by_cases h1 : t = "" <;> by_cases h2 : p = "" <;>
    by_cases h3 : t = p <;>
    by_cases h4 : existe_registro regs t p "LEITURA" = true <;>
    simp_all

/-- Claim C1 witness: a fresh non-empty matching pair is accepted on the
LEITURA screen. -/
theorem c1_policy_amended_witness :
    avaliar_leitura [] "A1" "A1" = .accept := by
  have h := c1_policy_amended [] "A1" "A1" rfl rfl
  exact h.1.mpr ⟨rfl, by decide, by decide, rfl⟩

/-! ## String ordering facts for the export query -/

theorem strListLe_total : ∀ a b : List Char, strListLe a b = true ∨ strListLe b a = true
  | [], _ => Or.inl rfl
  | _ :: _, [] => Or.inr rfl
  | a :: as, b :: bs => by
    unfold strListLe
    rcases Nat.lt_trichotomy a.toNat b.toNat with h | h | h
    · left; rw [if_pos h]
    · rw [if_neg (by omega), if_neg (by omega), if_neg (by omega), if_neg (by omega)]
      exact strListLe_total as bs
    · right; rw [if_pos h]

theorem strListLe_trans : ∀ a b c : List Char,
    strListLe a b = true → strListLe b c = true → strListLe a c = true
  | [], _, _, _, _ => rfl
  | _ :: _, [], _, h1, _ => absurd h1 (by simp [strListLe])
  | _ :: _, _ :: _, [], _, h2 => absurd h2 (by simp [strListLe])
  | a :: as, b :: bs, c :: cs, h1, h2 => by
    unfold strListLe at h1 h2 ⊢
    rcases Nat.lt_trichotomy a.toNat b.toNat with h₁ | h₁ | h₁
    · rcases Nat.lt_trichotomy b.toNat c.toNat with h₂ | h₂ | h₂
      · rw [if_pos (by omega)]
      · rw [if_pos (by omega)]
      · rw [if_neg (by omega), if_pos h₂] at h2
        exact Bool.noConfusion h2
    · rw [if_neg (by omega), if_neg (by omega)] at h1
      rcases Nat.lt_trichotomy b.toNat c.toNat with h₂ | h₂ | h₂
      · rw [if_pos (by omega)]
      · rw [if_neg (by omega), if_neg (by omega)] at h2
        rw [if_neg (by omega), if_neg (by omega)]
        exact strListLe_trans as bs cs h1 h2
      · rw [if_neg (by omega), if_pos h₂] at h2
        exact Bool.noConfusion h2
    · rw [if_neg (by omega), if_pos h₁] at h1
      exact Bool.noConfusion h1

instance : IsTotal Registro regLe :=
  ⟨fun a b => strListLe_total a.data_hora.data b.data_hora.data⟩

instance : IsTrans Registro regLe :=
  ⟨fun _ _ _ h1 h2 => strListLe_trans _ _ _ h1 h2⟩

theorem mem_query_export {regs : List Registro} {dt_ini dt_fim : String}
    {tipo : Option String} {apenas_div : Bool} {r : Registro} :
    r ∈ query_export regs dt_ini dt_fim tipo apenas_div ↔
      r ∈ regs ∧ exportPred dt_ini dt_fim tipo apenas_div r = true := by
  unfold query_export
  rw [List.mem_insertionSort, List.mem_filter]

theorem exportPred_iff {dt_ini dt_fim : String} {tipo : Option String}
    {apenas_div : Bool} {r : Registro} :
    exportPred dt_ini dt_fim tipo apenas_div r = true ↔
      (strLe (dt_ini ++ " 00:00:00") r.data_hora = true ∧
       strLe r.data_hora (dt_fim ++ " 23:59:59") = true ∧
       (∀ t, tipo = some t → t ≠ "" → t ≠ "TODAS" → r.tipo_tela = t) ∧
       (apenas_div = true → r.divergencia = 1)) := by
  unfold exportPred
  rcases tipo with _ | t
  · cases apenas_div <;> simp <;> tauto
  · by_cases h1 : t = "" <;> by_cases h2 : t = "TODAS" <;>
      cases apenas_div <;> simp_all <;> tauto

/-! ## Claim C7 -/

/-- Claim C7: `query_export` returns exactly the stored rows whose
timestamp lies in the inclusive day range (as a permutation of the
filtered log, so multiplicities are preserved), restricted to the
selected screen tag and, when the flag is set, to divergent rows, and
the result is sorted ascending by timestamp.  It is a pure function of
the store and the parameters, so re-running it with no intervening
writes yields the same sequence. -/
theorem c7_query_export_spec (regs : List Registro) (dt_ini dt_fim : String)
    (tipo : Option String) (apenas_div : Bool) :
    (query_export regs dt_ini dt_fim tipo apenas_div).Perm
      (regs.filter (exportPred dt_ini dt_fim tipo apenas_div)) ∧
    List.Sorted regLe (query_export regs dt_ini dt_fim tipo apenas_div) ∧
    (∀ r : Registro, r ∈ query_export regs dt_ini dt_fim tipo apenas_div ↔
      (r ∈ regs ∧
       strLe (dt_ini ++ " 00:00:00") r.data_hora = true ∧
       strLe r.data_hora (dt_fim ++ " 23:59:59") = true ∧
       (∀ t, tipo = some t → t ≠ "" → t ≠ "TODAS" → r.tipo_tela = t) ∧
       (apenas_div = true → r.divergencia = 1))) := by
  refine ⟨List.perm_insertionSort _ _, List.sorted_insertionSort _ _, fun r => ?_⟩
  rw [mem_query_export, exportPred_iff]

/-! ## Claim C4 -/

/-- Claim C4: a record whose codes are already sanitized (length at most
10) that is appended to the log is returned by any subsequent export
query whose date range covers its timestamp and whose filters it
satisfies, with every field — timestamp, user, context, transport,
order, divergence flag (stored as 0/1), authorizer, reason —
unchanged. -/
theorem c4_roundtrip (regs : List Registro) (row : RowInput)
    (dt_ini dt_fim : String) (tipo : Option String) (apenas_div : Bool)
    (ht : row.transporte.length ≤ 10) (hp : row.pedido.length ≤ 10)
    (h1 : strLe (dt_ini ++ " 00:00:00") row.data_hora = true)
    (h2 : strLe row.data_hora (dt_fim ++ " 23:59:59") = true)
    (htipo : ∀ t, tipo = some t → t ≠ "" → t ≠ "TODAS" → row.tipo_tela = t)
    (hdiv : apenas_div = true → row.divergencia = true) :
    (⟨row.data_hora, row.usuario, row.tipo_tela, row.transporte, row.pedido,
      if row.divergencia then 1 else 0,
      row.supervisor_liberou, row.motivo_divergencia⟩ : Registro)
      ∈ query_export (append_row regs row) dt_ini dt_fim tipo apenas_div := by
  rw [mem_query_export]
  constructor
  · unfold append_row
    rw [takeStr_of_le ht, takeStr_of_le hp]
    exact List.mem_append_right _ (List.mem_singleton_self _)
  · rw [exportPred_iff]
    refine ⟨h1, h2, htipo, fun ha => ?_⟩
    rw [hdiv ha]
    rfl

/-- Claim C4 witness: a concrete accepted scan appended to the empty log
is returned by an export over its day. -/
theorem c4_roundtrip_witness :
    (⟨"2024-05-05 10:00:00", "op", "LEITURA", "AB1", "AB1", 0, "", ""⟩ : Registro)
      ∈ query_export
          (append_row [] ⟨"2024-05-05 10:00:00", "op", "LEITURA", "AB1", "AB1", false, "", ""⟩)
          "2024-05-05" "2024-05-05" none false := by
  have h := c4_roundtrip [] ⟨"2024-05-05 10:00:00", "op", "LEITURA", "AB1", "AB1", false, "", ""⟩
    "2024-05-05" "2024-05-05" none false
    (by decide) (by decide) (by decide) (by decide)
    (fun t hsome => by cases hsome) (fun hf => by cases hf)
  exact h

/-! ## Claim C3 -/

/-- Under distinct logins, two list members with the same `uid` are the
same row. -/
theorem mem_uid_inj {l : List Usuario}
    (h : l.Pairwise (fun a b => a.uid ≠ b.uid)) :
    ∀ {x y : Usuario}, x ∈ l → y ∈ l → x.uid = y.uid → x = y := by
  intro x y hx hy hxy
  by_contra hne
  have hsymm : Symmetric (fun a b : Usuario => a.uid ≠ b.uid) :=
    fun _ _ hab h' => hab h'.symm
  exact h.forall hsymm hx hy hne hxy

/-- Under the UNIQUE constraint on the `uid` column, the row found for a
login is exactly the row carrying that login. -/
theorem find_uid_of_unique {l : List Usuario} {k : String}
    (h : l.Pairwise (fun a b => a.uid ≠ b.uid)) (x : Usuario) :
    l.find? (fun u => u.uid == k) = some x ↔ x ∈ l ∧ x.uid = k := by
  induction l with
  | nil => simp
  | cons a l ih =>
    rw [List.pairwise_cons] at h
    by_cases ha : a.uid = k
    · rw [List.find?_cons_of_pos _ (by simpa using ha)]
      constructor
      · intro h'
        injection h' with h'
        exact ⟨h' ▸ List.mem_cons_self a l, h' ▸ ha⟩
      · rintro ⟨hmem, hx⟩
        rcases List.mem_cons.mp hmem with rfl | hmem
        · rfl
        · exact absurd (ha.trans hx.symm) (h.1 x hmem)
    · rw [List.find?_cons_of_neg _ (by simpa using ha), ih h.2]
      constructor
      · rintro ⟨hm, hk⟩
        exact ⟨List.mem_cons_of_mem _ hm, hk⟩
      · rintro ⟨hm, hk⟩
        rcases List.mem_cons.mp hm with rfl | hm
        · exact absurd hk ha
        · exact ⟨hm, hk⟩

/-- Claim C3: for a store satisfying the UNIQUE-login constraint and a
trimmed login, `autenticar` returns the identity record `(id, uid, nome,
role, ativo)` iff a user with that login exists, is active, and the hash
of the supplied password under the stored salt equals the stored hash;
in every other case (unknown login, inactive account, wrong password) it
returns the single failure value `none`. -/
theorem c3_autenticar_spec (hashFn : HashFn) (usuarios : List Usuario)
    (login senha : String)
    (huniq : usuarios.Pairwise (fun a b => a.uid ≠ b.uid))
    (hlogin : strip login = login) :
    (∀ ident, autenticar hashFn usuarios login senha = some ident ↔
      ∃ u : Usuario, u ∈ usuarios ∧ u.uid = login ∧ u.ativo = true ∧
        hashFn u.salt_hex senha = u.hash_hex ∧
        ident = ⟨u.id, u.uid, u.nome, u.role, u.ativo⟩) ∧
    (autenticar hashFn usuarios login senha = none ↔
      ¬ ∃ u : Usuario, u ∈ usuarios ∧ u.uid = login ∧ u.ativo = true ∧
        hashFn u.salt_hex senha = u.hash_hex) := by
  have key : ∀ ident, autenticar hashFn usuarios login senha = some ident ↔
      ∃ u : Usuario, u ∈ usuarios ∧ u.uid = login ∧ u.ativo = true ∧
        hashFn u.salt_hex senha = u.hash_hex ∧
        ident = ⟨u.id, u.uid, u.nome, u.role, u.ativo⟩ := by
    intro ident
    unfold autenticar
    rw [hlogin]
    cases hfind : usuarios.find? (fun u => u.uid == login) with
    | none =>
      simp only [reduceCtorEq, false_iff]
      rintro ⟨u, hu, huid, -, -, -⟩
      rw [List.find?_eq_none] at hfind
      exact absurd (by simpa using huid) (hfind u hu)
    | some u =>
      dsimp only
      obtain ⟨hmem, huid⟩ := (find_uid_of_unique huniq u).mp hfind
      by_cases hact : u.ativo
      · rw [if_neg (by simp [hact])]
        unfold verify_password
        by_cases hver : hashFn u.salt_hex senha = u.hash_hex
        · rw [if_pos (by simpa using hver)]
          constructor
          · intro h'
            injection h' with h'
            exact ⟨u, hmem, huid, hact, hver, h'.symm⟩
          · rintro ⟨u', hu', huid', -, -, rfl⟩
            have : u' = u := mem_uid_inj huniq hu' hmem (huid'.trans huid.symm)
            rw [this]
        · rw [if_neg (by simpa using hver)]
          simp only [reduceCtorEq, false_iff]
          rintro ⟨u', hu', huid', -, hver', -⟩
          have : u' = u := mem_uid_inj huniq hu' hmem (huid'.trans huid.symm)
          exact hver (this ▸ hver')
      · rw [if_pos (by simp [hact])]
        simp only [reduceCtorEq, false_iff]
        rintro ⟨u', hu', huid', hact', -, -⟩
        have : u' = u := mem_uid_inj huniq hu' hmem (huid'.trans huid.symm)
        exact hact (by rw [← this]; exact hact')
  refine ⟨key, ?_⟩
  constructor
  · intro hnone
    rintro ⟨u, hu, huid, hact, hver⟩
    have := (key ⟨u.id, u.uid, u.nome, u.role, u.ativo⟩).mpr
      ⟨u, hu, huid, hact, hver, rfl⟩
    rw [hnone] at this
    cases this
  · intro hno
    cases hres : autenticar hashFn usuarios login senha with
    | none => rfl
    | some ident =>
      obtain ⟨u, hu, huid, hact, hver, -⟩ := (key ident).mp hres
      exact absurd ⟨u, hu, huid, hact, hver⟩ hno

/-- Claim C3 witness: a concrete one-user store, correct login and
password. -/
theorem c3_autenticar_witness :
    autenticar (fun s p_ => s ++ p_)
        [⟨1, "ana", "Ana", "admin", "s1", "s1pw", true, "t0"⟩] "ana" "pw"
      = some ⟨1, "ana", "Ana", "admin", true⟩ := by
  have h := c3_autenticar_spec (fun s p_ => s ++ p_)
    [⟨1, "ana", "Ana", "admin", "s1", "s1pw", true, "t0"⟩] "ana" "pw"
    (by simp) rfl
  exact (h.1 _).mpr
    ⟨⟨1, "ana", "Ana", "admin", "s1", "s1pw", true, "t0"⟩,
      List.mem_singleton_self _, rfl, rfl, rfl, rfl⟩

/-! ## Claim C5 -/

/-- Claim C5: once `criar_usuario` has succeeded for a login, a second
call with the same login is rejected by the UNIQUE constraint on the
stored (stripped) login — `DuplicateLogin` — the store still contains
exactly one user with that login, and the failed insert leaves no
partial row (the error carries no store mutation). -/
theorem c5_duplicate_login (hashFn : HashFn) (us us' : List Usuario)
    (id1 id2 : Nat) (uid nome1 nome2 role1 role2 salt1 salt2 pw1 pw2 : String)
    (a1 a2 : Bool) (ts1 ts2 : String)
    (h : criar_usuario hashFn us id1 uid nome1 role1 salt1 pw1 a1 ts1 = .ok us') :
    criar_usuario hashFn us' id2 uid nome2 role2 salt2 pw2 a2 ts2
        = .error .duplicateLogin ∧
    (us'.filter (fun u => u.uid == strip uid)).length = 1 := by
  unfold criar_usuario at h ⊢
  by_cases hany : us.any (fun u => u.uid == strip uid) = true
  · rw [if_pos hany] at h
    cases h
  · rw [if_neg hany] at h
    injection h with h
    subst h
    have hnone : ∀ u ∈ us, (u.uid == strip uid) = false := by
      intro u hu
      by_contra hne
      exact hany (List.any_eq_true.mpr ⟨u, hu, by simpa using hne⟩)
    constructor
    · rw [if_pos]
      rw [List.any_append]
      simp
    · rw [List.filter_append]
      rw [List.filter_eq_nil_iff.mpr (by intro u hu; simp [hnone u hu])]
      simp

/-- Claim C5 witness: creating "bob" twice on an initially empty store —
the second call fails and exactly one "bob" row remains. -/
theorem c5_duplicate_login_witness :
    criar_usuario (fun s p_ => s ++ p_)
        [⟨1, "bob", "Bob", "user", "s1", "s1pw", true, "t0"⟩]
        2 "bob" "Bob2" "user" "s2" "pw2" false "t1"
      = .error .duplicateLogin ∧
    (([⟨1, "bob", "Bob", "user", "s1", "s1pw", true, "t0"⟩] : List Usuario).filter
        (fun u => u.uid == strip "bob")).length = 1 := by
  have h := c5_duplicate_login (fun s p_ => s ++ p_) []
    [⟨1, "bob", "Bob", "user", "s1", "s1pw", true, "t0"⟩]
    1 2 "bob" "Bob" "Bob2" "user" "user" "s1" "s2" "pw" "pw2" true false "t0" "t1" rfl
  exact h

/-! ## Claim C2 -/

/-- Claim C2: the divergence dialog resolves to accept — writing exactly
one divergent record — iff authentication of the submitted credentials
succeeds, the authenticated role is supervisor or admin, and the reason
is non-empty after stripping whitespace; a login whose stored account
has role `user` can never produce the accept outcome, whatever password
is submitted; and every failed submission leaves the record log
untouched. -/
theorem c2_override_gate (hashFn : HashFn) (usuarios : List Usuario)
    (regs : List Registro)
    (current_uid transporte pedido origem sid spw motivo now : String) :
    ((dialog_divergencia hashFn usuarios regs current_uid transporte pedido origem
        sid spw motivo now).1 = .resolvedAccept ↔
      ∃ auth : AuthInfo, autenticar hashFn usuarios sid spw = some auth ∧
        (auth.role = "supervisor" ∨ auth.role = "admin") ∧ strip motivo ≠ "") ∧
    (∀ u : Usuario, usuarios.find? (fun x => x.uid == strip sid) = some u →
      u.role = "user" →
      (dialog_divergencia hashFn usuarios regs current_uid transporte pedido origem
        sid spw motivo now).1 ≠ .resolvedAccept) ∧
    ((dialog_divergencia hashFn usuarios regs current_uid transporte pedido origem
        sid spw motivo now).1 ≠ .resolvedAccept →
      (dialog_divergencia hashFn usuarios regs current_uid transporte pedido origem
        sid spw motivo now).2 = regs) ∧
    ((dialog_divergencia hashFn usuarios regs current_uid transporte pedido origem
        sid spw motivo now).1 = .resolvedAccept →
      (dialog_divergencia hashFn usuarios regs current_uid transporte pedido origem
        sid spw motivo now).2
        = regs ++ [⟨now, current_uid, origem, takeStr transporte 10, takeStr pedido 10,
                    1, sid, strip motivo⟩]) := by
  unfold dialog_divergencia
  cases hauth : autenticar hashFn usuarios sid spw with
  | none =>
    refine ⟨by simp, fun u hfind hrole => by simp, fun _ => rfl, fun hacc => ?_⟩
    cases hacc
  | some auth =>
    dsimp only
    by_cases hrole : (auth.role == "supervisor" || auth.role == "admin") = true
    · rw [if_pos hrole]
      by_cases hmot : (strip motivo == "") = true
      · rw [if_pos hmot]
        refine ⟨?_, fun u hfind hur => by simp, fun _ => rfl, fun hacc => by cases hacc⟩
        simp only [reduceCtorEq, false_iff]
        rintro ⟨auth', -, -, hmot'⟩
        exact hmot' (by simpa using hmot)
      · rw [if_neg hmot]
        have hrole' : auth.role = "supervisor" ∨ auth.role = "admin" := by
          rcases Bool.or_eq_true_iff.mp hrole with h | h
          · exact Or.inl (by simpa using h)
          · exact Or.inr (by simpa using h)
        refine ⟨?_, ?_, fun hne => absurd rfl hne, fun _ => by
          unfold append_row
          rfl⟩
        · simp only [true_iff]
          exact ⟨auth, rfl, hrole', by simpa using hmot⟩
        · intro u hfind hur habs
          unfold autenticar at hauth
          rw [hfind] at hauth
          dsimp only at hauth
          by_cases hact : u.ativo = true
          · rw [if_neg (by simp [hact])] at hauth
            by_cases hver : verify_password hashFn spw u.salt_hex u.hash_hex = true
            · rw [if_pos hver] at hauth
              injection hauth with hauth
              have hru : auth.role = u.role := by rw [← hauth]
              rcases hrole' with h | h <;> rw [hru, hur] at h <;>
                exact absurd h (by decide)
            · rw [if_neg hver] at hauth
              cases hauth
          · rw [if_pos (by simp [hact])] at hauth
            cases hauth
    · rw [if_neg hrole]
      refine ⟨?_, fun u hfind hur => by simp, fun _ => rfl, fun hacc => by cases hacc⟩
      simp only [reduceCtorEq, false_iff]
      rintro ⟨auth', hauth', hr', -⟩
      injection hauth' with hauth'
      subst hauth'
      rcases hr' with h | h <;> simp [h] at hrole

/-! ## Claim C9 -/

/-- Claim C9 counterexample: updating a user with `ativo = 0` is a
legitimate `update_user` call that changes only the (name, role, active)
metadata, yet a password that authenticated before the update no longer
authenticates after it — the claim's "authenticates identically" clause
fails. -/
theorem c9_counterexample :
    (autenticar (fun s p_ => s ++ p_)
        [⟨1, "bob", "Bob", "user", "s1", "s1pw", true, "t0"⟩] "bob" "pw").isSome
      = true ∧
    (autenticar (fun s p_ => s ++ p_)
        (atualizar_usuario [⟨1, "bob", "Bob", "user", "s1", "s1pw", true, "t0"⟩]
          1 "Bob" "user" false)
        "bob" "pw").isSome
      = false := by
  exact ⟨rfl, rfl⟩

/-- Claim C9 (amended): `atualizar_usuario` changes only the targeted
user's name, role and active flag — its login, salt, password hash and
creation timestamp, and every other user record, are unchanged — and
whenever the update preserves the user's active flag, every password
that authenticated before the update still authenticates after it
(deactivating the account blocks authentication, as the counterexample
shows). -/
theorem c9_update_frame (users : List Usuario) (user_id : Nat)
    (nome role : String) (ativo : Bool) :
    ((atualizar_usuario users user_id nome role ativo).map
        (fun u => (u.id, u.uid, u.salt_hex, u.hash_hex, u.criado_em))
      = users.map (fun u => (u.id, u.uid, u.salt_hex, u.hash_hex, u.criado_em))) ∧
    (∀ u ∈ users, u.id ≠ user_id → u ∈ atualizar_usuario users user_id nome role ativo) ∧
    ((∀ u ∈ users, u.id = user_id → u.ativo = ativo) →
      ∀ (hashFn : HashFn) (login pw : String),
        (autenticar hashFn (atualizar_usuario users user_id nome role ativo) login pw).isSome
          = (autenticar hashFn users login pw).isSome) := by
  refine ⟨?_, ?_, ?_⟩
  · unfold atualizar_usuario
    rw [List.map_map]
    apply List.map_congr_left
    intro u _
    by_cases h : u.id = user_id <;> simp [h]
  · intro u hu hne
    unfold atualizar_usuario
    exact List.mem_map.mpr ⟨u, hu, by simp [hne]⟩
  · intro hact hashFn login pw
    unfold autenticar atualizar_usuario
    rw [List.find?_map]
    have hcomp : ((fun u : Usuario => u.uid == strip login) ∘
        (fun u : Usuario => if (u.id == user_id) = true then
          { u with nome := strip nome, role := role, ativo := ativo } else u))
        = (fun u : Usuario => u.uid == strip login) := by
      funext u
      by_cases h : u.id = user_id <;> simp [h]
    rw [hcomp]
    cases hfind : users.find? (fun u => u.uid == strip login) with
    | none => rfl
    | some u =>
      rw [Option.map_some']
      dsimp only
      have hu : u ∈ users := List.mem_of_find?_eq_some hfind
      by_cases hid : (u.id == user_id) = true
      · have hek : u.ativo = ativo := hact u hu (by simpa using hid)
        rw [if_pos hid]
        dsimp only
        rw [← hek]
        by_cases hv : verify_password hashFn pw u.salt_hex u.hash_hex = true <;>
          cases hb : u.ativo <;> simp [hv, hb]
      · rw [if_neg hid]

/-! ## Claim C10 -/

/-- Claim C10: `criar_usuario` stores the stripped login; a later create
whose login differs only in surrounding whitespace (same stripped form)
fails as a duplicate; authentication succeeds for any whitespace-padded
variant of the stored login given the right password on an active
account; and a whitespace-only login is stored as the empty string. -/
theorem c10_login_strip (hashFn : HashFn) (us us' : List Usuario) (id1 : Nat)
    (uid nome role salt senha : String) (ativo : Bool) (ts : String)
    (h : criar_usuario hashFn us id1 uid nome role salt senha ativo ts = .ok us') :
    (∃ u : Usuario, us' = us ++ [u] ∧ u.uid = strip uid) ∧
    (∀ (id2 : Nat) (uid2 nome2 role2 salt2 senha2 : String) (a2 : Bool) (ts2 : String),
      strip uid2 = strip uid →
      criar_usuario hashFn us' id2 uid2 nome2 role2 salt2 senha2 a2 ts2
        = .error .duplicateLogin) ∧
    (∀ login : String, strip login = strip uid → ativo = true →
      autenticar hashFn us' login senha
        = some ⟨id1, strip uid, strip (if nome == "" then uid else nome), role, true⟩) ∧
    (strip uid = "" → ∃ u : Usuario, us' = us ++ [u] ∧ u.uid = "") := by
  unfold criar_usuario at h
  by_cases hany : us.any (fun u => u.uid == strip uid) = true
  · rw [if_pos hany] at h
    cases h
  · rw [if_neg hany] at h
    injection h with h
    subst h
    have hnone : ∀ u ∈ us, (u.uid == strip uid) = false := by
      intro u hu
      by_contra hne
      exact hany (List.any_eq_true.mpr ⟨u, hu, by simpa using hne⟩)
    refine ⟨⟨_, rfl, rfl⟩, ?_, ?_, fun he => ⟨_, rfl, he⟩⟩
    · intro id2 uid2 nome2 role2 salt2 senha2 a2 ts2 heq
      unfold criar_usuario
      rw [if_pos]
      rw [heq, List.any_append]
      simp
    · intro login hlogin hativo
      unfold autenticar
      rw [hlogin]
      rw [List.find?_append]
      rw [List.find?_eq_none.mpr (by intro u hu; simp [hnone u hu])]
      rw [Option.none_or]
      rw [List.find?_cons_of_pos _ (by simp)]
      dsimp only
      rw [hativo]
      rw [if_neg (by simp)]
      unfold verify_password
      rw [if_pos (by simp)]

/-- Claim C10 witness: creating login " bob " stores "bob"; creating
"bob  " afterwards is a duplicate; logging in as "  bob" with the right
password succeeds. -/
theorem c10_login_strip_witness :
    criar_usuario (fun s p_ => s ++ p_)
        [⟨1, "bob", "Bob", "user", "s1", "s1pw", true, "t0"⟩]
        2 "bob  " "X" "user" "s2" "pw2" true "t1"
      = .error .duplicateLogin ∧
    autenticar (fun s p_ => s ++ p_)
        [⟨1, "bob", "Bob", "user", "s1", "s1pw", true, "t0"⟩] "  bob" "pw"
      = some ⟨1, "bob", "Bob", "user", true⟩ := by
  have h := c10_login_strip (fun s p_ => s ++ p_) []
    [⟨1, "bob", "Bob", "user", "s1", "s1pw", true, "t0"⟩]
    1 " bob " "Bob" "user" "s1" "pw" true "t0" rfl
  exact ⟨h.2.1 2 "bob  " "X" "user" "s2" "pw2" true "t1" rfl,
         h.2.2.1 "  bob" rfl rfl⟩

end Validador
